import Mathlib

/-!
Verification of the multi-file-format RAG backend (FastAPI + LlamaIndex).

Shallow embedding of the authentication module (`src/utils/auth.py`), the
HTTP handlers of `src/app.py` (upload, query filtering, chat citations,
file deletion) and the tenant-isolation SQL they run against the
`data_llamaindex_embeddings` table.  The external services (bcrypt, the
jose JWT library, pandoc/pymupdf extraction, the embedding model) are
modelled at the boundary the code uses them through: bcrypt verification
and the pandoc-supported extension list are parameters, a JWT token is
represented by its decoded content together with the signing key and
algorithm name, and extraction output is the text it returns.
-/

/-- Outcome of raising FastAPI's HTTPException: status code, detail string,
and the optional WWW-Authenticate response header (the only header the code
ever attaches, in `get_current_user`). -/
structure HTTPError where
  status : Nat
  detail : String
  wwwAuthenticate : Option String
deriving DecidableEq, Repr

/-- Claim set carried by a token, as built in `create_access_token`: the
"sub" entry (absent when the caller's dict had none) and the "exp" entry,
an absolute expiration instant in unix seconds. -/
structure JWTPayload where
  sub : Option String
  exp : Nat
deriving DecidableEq, Repr

/-- Modelled from the jose library boundary: a signed token is represented
by its payload together with the key it was signed with and the algorithm
name, since the base64/HMAC wire format is opaque to this code. -/
structure JWT where
  payload : JWTPayload
  key : String
  alg : String
deriving DecidableEq, Repr

/-- SECRET_KEY from src/utils/auth.py line 11 (the environment default). -/
def SECRET_KEY : String := "your-secret-key-change-this-in-production"

/-- ALGORITHM from src/utils/auth.py line 12. -/
def ALGORITHM : String := "HS256"

/-- ACCESS_TOKEN_EXPIRE_MINUTES from src/utils/auth.py line 13. -/
def ACCESS_TOKEN_EXPIRE_MINUTES : Nat := 30

/-- Modelled from the jose library boundary: jwt.encode signs the payload
with the given key and algorithm. -/
def jwt_encode (payload : JWTPayload) (key : String) (alg : String) : JWT :=
  ⟨payload, key, alg⟩

/-- Modelled from the jose library boundary: jwt.decode returns the payload
when the signature verifies (same key), the algorithm is among the allowed
ones, and the token is not expired at the current instant; otherwise it
raises JWTError, modelled as none. -/
def jwt_decode (t : JWT) (key : String) (algs : List String) (now : Nat) :
    Option JWTPayload :=
  if t.key == key && algs.contains t.alg && now < t.payload.exp then
    some t.payload
  else
    none

/-- create_access_token from src/utils/auth.py lines 54-62.  `now` is the
current instant in unix seconds, `expires_delta` the optional ttl in
seconds; absent it, the code uses timedelta(minutes=15). -/
def create_access_token (sub : String) (now : Nat)
    (expires_delta : Option Nat) : JWT :=
  let expire : Nat :=
    match expires_delta with
    | some d => now + d
    | none => now + 15 * 60
  jwt_encode ⟨some sub, expire⟩ SECRET_KEY ALGORITHM

/-- decode_access_token from src/utils/auth.py lines 64-71: decode with the
server secret, read the "sub" claim, and return `email or None` (so the
empty string also maps to none). -/
def decode_access_token (t : JWT) (now : Nat) : Option String :=
  match jwt_decode t SECRET_KEY [ALGORITHM] now with
  | none => none
  | some p =>
    match p.sub with
    | none => none
    | some email => if email == "" then none else some email

/-- Python str.partition at the first occurrence of a separator character:
the part before it and the part after it (empty when the separator is
absent, as Python's third component then is). -/
def partitionChar (sep : Char) : List Char → List Char × List Char
  | [] => ([], [])
  | c :: rest =>
    if c == sep then ([], rest)
    else
      let pa := partitionChar sep rest
      (c :: pa.1, pa.2)

/-- Python str.lower over the characters of a string. -/
def lowerChars (l : List Char) : List Char :=
  l.map Char.toLower

/-- Helper from fastapi.security.utils: partition the header value at the
first space into (scheme, param). -/
def get_authorization_scheme_param (authorization : String) :
    String × String :=
  let pa := partitionChar ' ' authorization.toList
  (⟨pa.1⟩, ⟨pa.2⟩)

/-- Modelled from the FastAPI library boundary: HTTPBearer.__call__ with
auto_error=True (src/utils/auth.py line 19).  A missing or empty header, or
one without both a scheme and a parameter, raises 403 "Not authenticated";
a scheme other than bearer (case-insensitive) raises 403 "Invalid
authentication credentials"; neither error carries a WWW-Authenticate
header.  Otherwise the credentials part is handed to the dependency. -/
def httpBearer (authorization : Option String) :
    Except HTTPError (String × String) :=
  match authorization with
  | none => .error ⟨403, "Not authenticated", none⟩
  | some v =>
    let sp := get_authorization_scheme_param v
    if v == "" || sp.1 == "" || sp.2 == "" then
      .error ⟨403, "Not authenticated", none⟩
    else if (⟨lowerChars sp.1.toList⟩ : String) != "bearer" then
      .error ⟨403, "Invalid authentication credentials", none⟩
    else
      .ok sp

/-- get_current_user from src/utils/auth.py lines 74-91.  `parse` models
jose's parsing of the raw credentials string back into a token (none for a
string that is not a well-formed signed token, which decode_access_token
turns into its JWTError branch). -/
def get_current_user (authorization : Option String)
    (parse : String → Option JWT) (now : Nat) : Except HTTPError String :=
  match httpBearer authorization with
  | .error e => .error e
  | .ok sp =>
    match (parse sp.2).bind (fun t => decode_access_token t now) with
    | none => .error ⟨401, "Could not validate credentials", some "Bearer"⟩
    | some email => .ok email

/-- get_current_active_user from src/utils/auth.py lines 94-101: currently
just forwards the resolved email. -/
def get_current_active_user (authorization : Option String)
    (parse : String → Option JWT) (now : Nat) : Except HTTPError String :=
  get_current_user authorization parse now

/-- Row of the users table as read by the login handler. -/
structure DBUser where
  email : String
  hashed_password : String
  is_active : Bool
deriving DecidableEq, Repr

/-- The 401 raised by the login handler for both an unknown email and a
failed password verification (src/app.py lines 205-216). -/
def incorrectCredsErr : HTTPError :=
  ⟨401, "Incorrect email or password", none⟩

/-- login from src/app.py lines 182-235.  `SELECT ... WHERE email = $1`
with fetchrow is the first matching row; `verify` models bcrypt password
verification (verify_password). -/
def login (db : List DBUser) (email password : String)
    (verify : String → String → Bool) (now : Nat) : Except HTTPError JWT :=
  match db.find? (fun u => u.email == email) with
  | none => .error incorrectCredsErr
  | some u =>
    if !(verify password u.hashed_password) then
      .error incorrectCredsErr
    else if !u.is_active then
      .error ⟨400, "Inactive user account", none⟩
    else
      .ok (create_access_token email now (some (ACCESS_TOKEN_EXPIRE_MINUTES * 60)))

/-- Row of the shared data_llamaindex_embeddings table, with the metadata
fields the claims touch (node_id, user_id, and the metadata_ JSON's
filename and page_number); content_type, file_size, file_path, total_pages
and the embedding vector are carried by no claim and elided. -/
structure Row where
  node_id : String
  user_id : Option String
  filename : String
  page_number : Option Nat
  text : String
deriving DecidableEq, Repr

/-- Predicate of both SQL statements of the delete handler
(src/app.py lines 664-669 and 680-684):
user_id = $1 AND metadata_->>'filename' = $2. -/
def rowMatches (owner filename : String) (r : Row) : Bool :=
  r.user_id == some owner && r.filename == filename

/-- The 404 raised by the delete handler when no row matches
(src/app.py lines 673-677). -/
def deleteNotFoundErr (filename : String) : HTTPError :=
  ⟨404, "File '" ++ filename ++ "' not found in your embeddings", none⟩

/-- delete_file from src/app.py lines 640-703: COUNT(*) over the matching
rows; when zero, close and raise 404 leaving the table untouched;
otherwise DELETE every matching row and report the count.  Returns the
table after the request together with the handler's outcome. -/
def delete_file (table : List Row) (owner filename : String) :
    List Row × Except HTTPError Nat :=
  let cnt := (table.filter (rowMatches owner filename)).length
  if cnt = 0 then
    (table, .error (deleteNotFoundErr filename))
  else
    (table.filter (fun r => !(rowMatches owner filename r)), .ok cnt)

/-- Effect of the tagging UPDATE on one row (src/app.py lines 320-329):
SET user_id = $1 WHERE metadata_->>'filename' = $2 AND user_id IS NULL. -/
def tagRow (owner filename : String) (r : Row) : Row :=
  if r.filename == filename && r.user_id == none then
    { r with user_id := some owner }
  else
    r

/-- The tagging UPDATE the upload handler runs after inserting all chunks
(src/app.py lines 318-329), applied across the whole shared table. -/
def tag_after_insert (table : List Row) (owner filename : String) :
    List Row :=
  table.map (tagRow owner filename)

/-- Result-filter loop of the query handler (src/app.py lines 396-410):
walk the ranked candidates in order, keep those whose node_id the caller
owns, and stop as soon as the kept list has reached top_k entries (the
length check runs only after a keep).  top_k is a Python int, so the bound
is an Int. -/
def filterLoop (owned : List String) (limit : Int) :
    List Row → List Row → List Row
  | [], acc => acc
  | n :: rest, acc =>
    if owned.contains n.node_id then
      let acc2 := acc ++ [n]
      if limit ≤ (acc2.length : Int) then acc2
      else filterLoop owned limit rest acc2
    else filterLoop owned limit rest acc

/-- filter_search_results: the loop above started with an empty results
list, as the query handler does. -/
def filter_search_results (results : List Row) (owned : List String)
    (limit : Int) : List Row :=
  filterLoop owned limit results []

/-- Insertion into a Python set, modelled as an append-if-absent list:
membership and element multiplicity are what the citation block reads off
it (ordering is erased by the final sorted()). -/
def setInsert (l : List Nat) (p : Nat) : List Nat :=
  if l.contains p then l else l ++ [p]

/-- Add a page to an existing filename key of sources_by_file. -/
def updateKey : List (String × List Nat) → String → Nat →
    List (String × List Nat)
  | [], _, _ => []
  | (k, v) :: rest, f, p =>
    if k == f then (k, setInsert v p) :: rest
    else (k, v) :: updateKey rest f p

/-- One iteration of the citation grouping loop (src/app.py lines 514-523)
for a node that passed the ownership check: ensure the filename key exists
(Python dict keeps first-insertion order), then add the page number when it
is truthy (None and 0 are both falsy). -/
def addNode (m : List (String × List Nat)) (filename : String)
    (page : Option Nat) : List (String × List Nat) :=
  let m1 := if m.any (fun kv => kv.1 == filename) then m
            else m ++ [(filename, [])]
  match page with
  | some p => if p ≠ 0 then updateKey m1 filename p else m1
  | none => m1

/-- The grouping for-loop of the generate() closure (src/app.py lines
513-523): walk the source nodes in stream order and fold each node that
passes the ownership check into sources_by_file. -/
def sourcesLoop (owned : List String) :
    List Row → List (String × List Nat) → List (String × List Nat)
  | [], m => m
  | n :: rest, m =>
    sourcesLoop owned rest
      (if owned.contains n.node_id then addNode m n.filename n.page_number
       else m)

/-- sources_by_file as built by the generate() closure of the chat handler
(src/app.py lines 512-523), starting from the empty dict. -/
def buildSources (nodes : List Row) (owned : List String) :
    List (String × List Nat) :=
  sourcesLoop owned nodes []

/-- Python's sorted() on the page numbers, modelled by insertion sort
(any correct comparison sort agrees with it on the result). -/
def sortedPages (l : List Nat) : List Nat :=
  List.insertionSort (fun a b => a ≤ b) l

/-- The reference lines the chat stream appends after the answer tokens
(src/app.py lines 525-532): one entry per filename of sources_by_file, its
page set listed via sorted(list(pages)). -/
def referencesBlock (nodes : List Row) (owned : List String) :
    List (String × List Nat) :=
  (buildSources nodes owned).map (fun kv => (kv.1, sortedPages kv.2))

/-- max_content_length from src/app.py line 269. -/
def MAX_CONTENT_LENGTH : Nat := 50000

/-- Truncation of the extracted document text before chunking
(src/app.py lines 268-272).  Text is modelled as its character list, so
length and slicing agree with Python's len and [:n]. -/
def truncateContent (content : List Char) : List Char :=
  if content.length > MAX_CONTENT_LENGTH then content.take MAX_CONTENT_LENGTH
  else content

/-- Python str.split on a single separator character: adjacent separators
yield empty fields and the empty string yields one empty field, as in
Python. -/
def splitOnChar (sep : Char) : List Char → List (List Char)
  | [] => [[]]
  | c :: rest =>
    let r := splitOnChar sep rest
    if c == sep then [] :: r
    else
      match r with
      | [] => [[c]]
      | h :: t => (c :: h) :: t

/-- file.filename.split(".")[-1].lower() from src/app.py line 259.
Python's split never yields an empty list, so the default branch of
getLastD is unreachable. -/
def fileExtension (filename : String) : String :=
  ⟨lowerChars ((splitOnChar '.' filename.toList).getLastD [])⟩

/-- Body of the 201 response of the upload handler (src/app.py lines
338-347); the constant message/model/note fields carry no claim. -/
structure UploadResponse where
  filename : String
  content_length : Nat
deriving DecidableEq, Repr

/-- State of the uploads/ directory (the set of file names present)
together with the handler's outcome. -/
structure UploadOutcome where
  disk : List String
  result : Except HTTPError UploadResponse
deriving Repr

/-- upload_file from src/app.py lines 237-347, up to the vector-store
insert (whose tagging step is tag_after_insert above, and whose success is
assumed for the 201 path).  The missing-filename 400 fires before any disk
write; then the bytes are written to uploads/<filename>; only then is the
extension dispatched, an unknown extension raising 400 with the file left
on disk.  `extracted` is the text the chosen extractor returns and
`pandocExts` the pandoc_supported() list (its module is not under src);
both extractors are external collaborators. -/
def upload_file (disk0 : List String) (filename : String)
    (extracted : List Char) (pandocExts : List String) : UploadOutcome :=
  if filename == "" then
    ⟨disk0, .error ⟨400, "Uploaded file must include a filename.", none⟩⟩
  else
    let disk1 := if disk0.contains filename then disk0
                 else disk0 ++ [filename]
    let ext := fileExtension filename
    if pandocExts.contains ext || ext == "pdf" then
      let content := truncateContent extracted
      ⟨disk1, .ok ⟨filename, content.length⟩⟩
    else
      ⟨disk1, .error ⟨400, "Unsupported file type for extraction.", none⟩⟩

/-- ASCII email-shaped strings, the domain the round-trip claim quantifies
over: nonempty, containing an at sign, all characters ASCII. -/
def isEmailShaped (s : String) : Bool :=
  s != "" && s.toList.contains '@' && s.toList.all (fun c => c.toNat < 128)

/-- C4: verifying a freshly issued token round-trips: for every ASCII
email-shaped subject, decoding the token minted for it with the same
server secret, before its expiration instant, returns the subject. -/
theorem C4_token_roundtrip (s : String) (issueTime now : Nat)
    (expires_delta : Option Nat)
    (hs : isEmailShaped s = true)
    (hexp : now < (create_access_token s issueTime expires_delta).payload.exp) :
    decode_access_token (create_access_token s issueTime expires_delta) now
      = some s := by
  simp only [isEmailShaped, Bool.and_eq_true, bne_iff_ne, ne_eq] at hs
  simp only [create_access_token, jwt_encode] at hexp ⊢
  simp [decode_access_token, jwt_decode, hexp, hs.1.1]

theorem C4_token_roundtrip_witness :
    isEmailShaped "alice@example.com" = true ∧
    100 < (create_access_token "alice@example.com" 0 (some 1800)).payload.exp ∧
    decode_access_token (create_access_token "alice@example.com" 0 (some 1800)) 100
      = some "alice@example.com" :=
  ⟨by decide, by decide,
    C4_token_roundtrip "alice@example.com" 0 100 (some 1800) (by decide) (by decide)⟩

/-- C5 counterexample: a token issued without an explicit ttl at instant 0
expires at 900 seconds (15 minutes), not at 1800 seconds (30 minutes) as
the claim states. -/
theorem C5_default_ttl_cex :
    (create_access_token "alice@example.com" 0 none).payload.exp ≠ 0 + 30 * 60 := by
  decide

/-- C5 amended: for every claim set issued without an explicit ttl
argument, the token's absolute expiration is the current time plus 15
minutes (the default branch of create_access_token), not 30; the 30-minute
window applies only because every caller passes it explicitly. -/
theorem C5_default_ttl (sub : String) (now : Nat) :
    (create_access_token sub now none).payload.exp = now + 15 * 60 := rfl

/-- C7: the login failure for an unknown email and the one for a known
email whose password does not verify are the identical HTTPException:
status 401 with detail "Incorrect email or password". -/
theorem C7_login_uniform_error (db : List DBUser)
    (emailA pwA emailB pwB : String) (verify : String → String → Bool)
    (now : Nat) (u : DBUser)
    (hA : db.find? (fun x => x.email == emailA) = none)
    (hB : db.find? (fun x => x.email == emailB) = some u)
    (hv : verify pwB u.hashed_password = false) :
    login db emailA pwA verify now = Except.error incorrectCredsErr ∧
    login db emailB pwB verify now = login db emailA pwA verify now ∧
    incorrectCredsErr.status = 401 := by
  unfold login
  rw [hA, hB]
  simp [hv]
  rfl

theorem C7_login_uniform_error_witness :
    login [⟨"bob@example.com", "H", true⟩] "alice@example.com" "pw1"
        (fun _ _ => false) 0 = Except.error incorrectCredsErr ∧
    login [⟨"bob@example.com", "H", true⟩] "bob@example.com" "pw2"
        (fun _ _ => false) 0 =
      login [⟨"bob@example.com", "H", true⟩] "alice@example.com" "pw1"
        (fun _ _ => false) 0 ∧
    incorrectCredsErr.status = 401 :=
  C7_login_uniform_error [⟨"bob@example.com", "H", true⟩]
    "alice@example.com" "pw1" "bob@example.com" "pw2" (fun _ _ => false) 0
    ⟨"bob@example.com", "H", true⟩ (by decide) (by decide) rfl

/-- Truncated content never exceeds the 50000-character cap. -/
theorem truncateContent_length_le (content : List Char) :
    (truncateContent content).length ≤ MAX_CONTENT_LENGTH := by
  unfold truncateContent
  split
  · simp
  · omega

/-- C9: every 201 upload response reports a content_length of at most
50000, the truncation cap applied to the extracted text before chunking. -/
theorem C9_content_length_bounded (disk0 : List String) (filename : String)
    (extracted : List Char) (pandocExts : List String) (r : UploadResponse)
    (h : (upload_file disk0 filename extracted pandocExts).result
      = Except.ok r) :
    r.content_length ≤ 50000 := by
  unfold upload_file at h
  split at h
  · simp at h
  · dsimp at h
    split at h
    · simp only [Except.ok.injEq] at h
      have := truncateContent_length_le extracted
      rw [← h]
      simpa [MAX_CONTENT_LENGTH] using this
    · simp at h

theorem C9_content_length_bounded_witness :
    (upload_file [] "a.md" "hi".toList ["md"]).result
      = Except.ok ⟨"a.md", 2⟩ ∧
    (⟨"a.md", 2⟩ : UploadResponse).content_length ≤ 50000 :=
  ⟨rfl, C9_content_length_bounded [] "a.md" "hi".toList ["md"] ⟨"a.md", 2⟩ rfl⟩

/-- C10: when a nonempty filename has an extension that is neither
pandoc-supported nor pdf, the upload handler fails with the 400
unsupported-type error, and the uploaded bytes are nevertheless present
under uploads/<filename>, which the error path does not remove. -/
theorem C10_unsupported_type_leaves_file (disk0 : List String)
    (filename : String) (extracted : List Char) (pandocExts : List String)
    (h1 : filename ≠ "")
    (h2 : pandocExts.contains (fileExtension filename) = false)
    (h3 : fileExtension filename ≠ "pdf") :
    (upload_file disk0 filename extracted pandocExts).result
      = Except.error ⟨400, "Unsupported file type for extraction.", none⟩ ∧
    filename ∈ (upload_file disk0 filename extracted pandocExts).disk := by
  have hne : (filename == "") = false := by simpa using h1
  have hext : (pandocExts.contains (fileExtension filename)
      || (fileExtension filename == "pdf")) = false := by
    rw [h2]
    simp [h3]
  have hdisk : filename ∈
      (if disk0.contains filename then disk0 else disk0 ++ [filename]) := by
    split
    · next hin => exact List.mem_of_elem_eq_true hin
    · simp
  unfold upload_file
  simp only [hne, hext, Bool.false_eq_true, if_false]
  exact ⟨trivial, hdisk⟩

theorem C10_unsupported_type_leaves_file_witness :
    (upload_file [] "evil.xyz" "hi".toList ["md", "txt"]).result
      = Except.error ⟨400, "Unsupported file type for extraction.", none⟩ ∧
    "evil.xyz" ∈ (upload_file [] "evil.xyz" "hi".toList ["md", "txt"]).disk :=
  C10_unsupported_type_leaves_file [] "evil.xyz" "hi".toList ["md", "txt"]
    (by decide) (by decide) (by decide)

/-- Headers of the form the claim describes: present and consisting of a
scheme that lowercases to "bearer" followed by a space and a nonempty
token. -/
def wellFormedBearerHeader (authorization : Option String) : Bool :=
  match authorization with
  | none => false
  | some v =>
    let sp := get_authorization_scheme_param v
    !(v == "" || sp.1 == "" || sp.2 == "") &&
      ((⟨lowerChars sp.1.toList⟩ : String) == "bearer")

/-- Unfolding of httpBearer on a present header. -/
theorem httpBearer_some (v : String) :
    httpBearer (some v) =
      (if v == "" || (get_authorization_scheme_param v).1 == ""
          || (get_authorization_scheme_param v).2 == "" then
        Except.error ⟨403, "Not authenticated", none⟩
      else if (⟨lowerChars (get_authorization_scheme_param v).1.toList⟩
          : String) != "bearer" then
        Except.error ⟨403, "Invalid authentication credentials", none⟩
      else
        Except.ok (get_authorization_scheme_param v)) := rfl

/-- A gate error from HTTPBearer is returned as is by get_current_user. -/
theorem get_current_user_eq_of_httpBearer_error
    (authorization : Option String) (parse : String → Option JWT) (now : Nat)
    (e : HTTPError) (h : httpBearer authorization = Except.error e) :
    get_current_user authorization parse now = Except.error e := by
  unfold get_current_user
  rw [h]

/-- C6 counterexample: a request with no Authorization header is rejected
by the auth dependency gate with HTTP 403 and no WWW-Authenticate header,
not with 401 and WWW-Authenticate: Bearer as the claim states. -/
theorem C6_gate_missing_header_cex :
    get_current_user none (fun _ => none) 0
      = Except.error ⟨403, "Not authenticated", none⟩ ∧
    (403 : Nat) ≠ 401 := by
  exact ⟨rfl, by decide⟩

/-- C6 amended: a missing or malformed Authorization header is rejected
before any handler logic by HTTPBearer with HTTP 403 and no
WWW-Authenticate header (FastAPI's auto_error behaviour); the 401 with
WWW-Authenticate: Bearer is produced only for a well-formed Bearer header
whose token fails to parse or verify. -/
theorem C6_gate_rejections (authorization : Option String)
    (parse : String → Option JWT) (now : Nat) :
    (wellFormedBearerHeader authorization = false →
      ∃ d, get_current_user authorization parse now
        = Except.error ⟨403, d, none⟩) ∧
    (∀ v, authorization = some v →
      wellFormedBearerHeader authorization = true →
      (parse (get_authorization_scheme_param v).2).bind
          (fun t => decode_access_token t now) = none →
      get_current_user authorization parse now
        = Except.error ⟨401, "Could not validate credentials", some "Bearer"⟩) := by
  constructor
  · intro hbad
    match authorization with
    | none => exact ⟨"Not authenticated", rfl⟩
    | some v =>
      simp only [wellFormedBearerHeader, Bool.and_eq_false_iff,
        Bool.not_eq_false] at hbad
      rcases hbad with hbad | hbad
      · refine ⟨"Not authenticated",
          get_current_user_eq_of_httpBearer_error _ _ _ _ ?_⟩
        rw [httpBearer_some, if_pos (by
          revert hbad
          cases (v == "" || (get_authorization_scheme_param v).1 == ""
            || (get_authorization_scheme_param v).2 == "") <;> simp)]
      · rcases hcond : (v == "" || (get_authorization_scheme_param v).1 == ""
            || (get_authorization_scheme_param v).2 == "") with _ | _
        · refine ⟨"Invalid authentication credentials",
            get_current_user_eq_of_httpBearer_error _ _ _ _ ?_⟩
          rw [httpBearer_some, if_neg (by simp [hcond]),
            if_pos (by simpa using hbad)]
        · refine ⟨"Not authenticated",
            get_current_user_eq_of_httpBearer_error _ _ _ _ ?_⟩
          rw [httpBearer_some, if_pos hcond]
  · intro v hv hgood hnone
    subst hv
    simp only [wellFormedBearerHeader, Bool.and_eq_true, Bool.not_eq_true'] at hgood
    have hok : httpBearer (some v) = .ok (get_authorization_scheme_param v) := by
      rw [httpBearer_some, if_neg (by simp [hgood.1]),
        if_neg (by simp only [bne_iff_ne, ne_eq, not_not]; exact eq_of_beq hgood.2)]
    unfold get_current_user
    rw [hok]
    simp only [hnone]

theorem C6_gate_rejections_witness :
    ∃ d, get_current_user (some "Basic abc") (fun _ => none) 0
      = Except.error ⟨403, d, none⟩ :=
  (C6_gate_rejections (some "Basic abc") (fun _ => none) 0).1 (by decide)

/-- C1: delete_file removes exactly the rows matching both the caller and
the filename: the resulting table only loses rows, every row that does not
match both predicates survives (in particular every row owned by another
user, same filename or not), a successful delete leaves no matching row,
and the request fails with the 404 NotFound error, deleting nothing, <=>
no row matches both. -/
theorem C1_delete_owned_scoped (table : List Row) (owner filename : String) :
    (∀ r, r ∈ (delete_file table owner filename).1 → r ∈ table) ∧
    (∀ r, r ∈ table → rowMatches owner filename r = false →
      r ∈ (delete_file table owner filename).1) ∧
    (∀ r other, r ∈ table → r.user_id = some other → other ≠ owner →
      r ∈ (delete_file table owner filename).1) ∧
    ((delete_file table owner filename).2.isOk = true →
      ∀ r, r ∈ (delete_file table owner filename).1 →
        rowMatches owner filename r = false) ∧
    ((delete_file table owner filename).2
        = Except.error (deleteNotFoundErr filename) ↔
      table.filter (rowMatches owner filename) = []) ∧
    (table.filter (rowMatches owner filename) = [] →
      (delete_file table owner filename).1 = table) := by
  unfold delete_file
  by_cases hc : (table.filter (rowMatches owner filename)).length = 0
  · rw [if_pos hc]
    have hnil : table.filter (rowMatches owner filename) = [] :=
      List.length_eq_zero.mp hc
    refine ⟨fun r hr => hr, fun r hr _ => hr, fun r other hr _ _ => hr,
      ?_, ?_, fun _ => rfl⟩
    · intro hok
      simp [Except.isOk, Except.toBool] at hok
    · simp [hnil]
  · rw [if_neg hc]
    have hne : table.filter (rowMatches owner filename) ≠ [] := by
      intro h
      exact hc (by rw [h]; rfl)
    refine ⟨?_, ?_, ?_, ?_, ?_, ?_⟩
    · intro r hr
      exact (List.mem_filter.mp hr).1
    · intro r hr hm
      exact List.mem_filter.mpr ⟨hr, by simp [hm]⟩
    · intro r other hr hu hno
      refine List.mem_filter.mpr ⟨hr, ?_⟩
      have : rowMatches owner filename r = false := by
        unfold rowMatches
        rw [hu]
        simp [hno]
      simp [this]
    · intro _ r hr
      have := (List.mem_filter.mp hr).2
      simpa using this
    · simp [hne]
    · intro h
      exact absurd h hne

theorem C1_delete_owned_scoped_witness :
    (⟨"n2", some "B", "x.pdf", some 1, "t"⟩ : Row) ∈
      (delete_file [⟨"n1", some "A", "x.pdf", some 2, "t"⟩,
        ⟨"n2", some "B", "x.pdf", some 1, "t"⟩] "A" "x.pdf").1 :=
  (C1_delete_owned_scoped [⟨"n1", some "A", "x.pdf", some 2, "t"⟩,
      ⟨"n2", some "B", "x.pdf", some 1, "t"⟩] "A" "x.pdf").2.2.1
    ⟨"n2", some "B", "x.pdf", some 1, "t"⟩ "B" (by decide) rfl (by decide)

/-- tag_after_insert preserves the number of rows. -/
theorem tag_after_insert_length (table : List Row) (owner filename : String) :
    (tag_after_insert table owner filename).length = table.length :=
  List.length_map table (tagRow owner filename)

/-- C2: the tagging update sets user_id to the uploader on exactly the rows
whose metadata filename matches and whose user_id is still NULL, and leaves
every other row unchanged (rows are compared positionally across the
update). -/
theorem C2_tag_after_insert (table : List Row) (owner filename : String) :
    (tag_after_insert table owner filename).length = table.length ∧
    ∀ i (h : i < table.length),
      ((table.get ⟨i, h⟩).filename = filename →
        (table.get ⟨i, h⟩).user_id = none →
        (tag_after_insert table owner filename).get
            ⟨i, by simpa [tag_after_insert_length] using h⟩
          = { table.get ⟨i, h⟩ with user_id := some owner }) ∧
      (((table.get ⟨i, h⟩).filename ≠ filename ∨
          (table.get ⟨i, h⟩).user_id ≠ none) →
        (tag_after_insert table owner filename).get
            ⟨i, by simpa [tag_after_insert_length] using h⟩
          = table.get ⟨i, h⟩) := by
  refine ⟨tag_after_insert_length table owner filename, ?_⟩
  intro i h
  have hmap : (tag_after_insert table owner filename).get
      ⟨i, by simpa [tag_after_insert_length] using h⟩
      = tagRow owner filename (table.get ⟨i, h⟩) := by
    simp [tag_after_insert, List.get_eq_getElem, List.getElem_map]
  constructor
  · intro hf hu
    simp only [List.get_eq_getElem] at hf hu
    rw [hmap]
    unfold tagRow
    rw [if_pos (by simp [hf, hu])]
  · intro hor
    rw [hmap]
    unfold tagRow
    simp only [List.get_eq_getElem] at hor
    have hcond : ((table[i].filename == filename) &&
        (table[i].user_id == none)) = false := by
      rcases hor with hf | hu
      · simp [hf]
      · simp [hu]
    rw [if_neg (by simp [hcond])]

theorem C2_tag_after_insert_witness :
    (tag_after_insert [⟨"n3", none, "x.pdf", none, "t"⟩] "A" "x.pdf").get
        ⟨0, by simpa [tag_after_insert_length] using Nat.zero_lt_one⟩
      = ⟨"n3", some "A", "x.pdf", none, "t"⟩ :=
  ((C2_tag_after_insert [⟨"n3", none, "x.pdf", none, "t"⟩] "A" "x.pdf").2
    0 Nat.zero_lt_one).1 rfl rfl

/-- The filter loop only ever appends to its accumulator, the appended part
is a sublist of the remaining candidates, and every appended entry passed
the ownership check. -/
theorem filterLoop_shape (owned : List String) (limit : Int) :
    ∀ (l acc : List Row), ∃ s,
      filterLoop owned limit l acc = acc ++ s ∧ s.Sublist l ∧
      ∀ n ∈ s, owned.contains n.node_id = true := by
  intro l
  induction l with
  | nil =>
    intro acc
    exact ⟨[], by simp [filterLoop]⟩
  | cons n rest ih =>
    intro acc
    unfold filterLoop
    by_cases ho : owned.contains n.node_id
    · rw [if_pos ho]
      by_cases hl : limit ≤ ((acc ++ [n]).length : Int)
      · rw [if_pos hl]
        exact ⟨[n], rfl, (List.nil_sublist rest).cons₂ n, by simpa using ho⟩
      · rw [if_neg hl]
        obtain ⟨s, hs, hsub, hown⟩ := ih (acc ++ [n])
        refine ⟨n :: s, by simpa using hs, hsub.cons₂ n, ?_⟩
        intro m hm
        rcases List.mem_cons.mp hm with hm | hm
        · subst hm; exact ho
        · exact hown m hm
    · rw [if_neg ho]
      obtain ⟨s, hs, hsub, hown⟩ := ih acc
      exact ⟨s, hs, hsub.cons n, hown⟩

/-- While the accumulator is strictly below the limit, the filter loop can
never grow it beyond the limit. -/
theorem filterLoop_length (owned : List String) (limit : Int) :
    ∀ (l acc : List Row), (acc.length : Int) < limit →
      (((filterLoop owned limit l acc).length : Int)) ≤ limit := by
  intro l
  induction l with
  | nil =>
    intro acc hacc
    unfold filterLoop
    omega
  | cons n rest ih =>
    intro acc hacc
    unfold filterLoop
    by_cases ho : owned.contains n.node_id
    · rw [if_pos ho]
      by_cases hl : limit ≤ ((acc ++ [n]).length : Int)
      · rw [if_pos hl]
        simp only [List.length_append, List.length_singleton]
        push_cast
        omega
      · rw [if_neg hl]
        exact ih (acc ++ [n]) (by omega)
    · rw [if_neg ho]
      exact ih acc hacc

/-- C3 counterexample: with limit 0 and one owned candidate, the filter
returns one entry, exceeding the limit (the length check runs only after a
keep, so a non-positive top_k still lets the first owned candidate
through). -/
theorem C3_limit_zero_cex :
    ¬ (((filter_search_results [⟨"n1", some "A", "x.pdf", some 1, "t"⟩]
      ["n1"] 0).length : Int) ≤ 0) := by
  decide

/-- C3 amended: the query result filter keeps only entries whose node_id is
owned by the caller, in the original rank order (a sublist of the
candidates), and, for every positive limit, returns at most limit entries;
for limit ≤ 0 the first owned candidate is still returned. -/
theorem C3_filter_search_results (results : List Row) (owned : List String)
    (limit : Int) :
    (∀ n ∈ filter_search_results results owned limit,
      owned.contains n.node_id = true) ∧
    (filter_search_results results owned limit).Sublist results ∧
    (1 ≤ limit →
      ((filter_search_results results owned limit).length : Int) ≤ limit) := by
  obtain ⟨s, hs, hsub, hown⟩ := filterLoop_shape owned limit results []
  have hres : filter_search_results results owned limit = s := by
    simpa [filter_search_results] using hs
  refine ⟨?_, ?_, ?_⟩
  · intro n hn
    exact hown n (hres ▸ hn)
  · rw [hres]
    exact hsub
  · intro hlim
    unfold filter_search_results
    exact filterLoop_length owned limit results [] (by simpa using hlim)

theorem C3_filter_search_results_witness :
    ((filter_search_results [⟨"n1", some "A", "x.pdf", some 1, "t"⟩,
        ⟨"n2", some "B", "x.pdf", some 2, "t"⟩] ["n1"] 5).length : Int) ≤ 5 :=
  (C3_filter_search_results [⟨"n1", some "A", "x.pdf", some 1, "t"⟩,
      ⟨"n2", some "B", "x.pdf", some 2, "t"⟩] ["n1"] 5).2.2 (by decide)

/-- Inserting into a page set keeps it duplicate-free. -/
theorem setInsert_nodup (l : List Nat) (p : Nat) (h : l.Nodup) :
    (setInsert l p).Nodup := by
  unfold setInsert
  split
  · exact h
  · next hc =>
    simp only [List.nodup_append, List.nodup_singleton, true_and]
    exact ⟨h, by simpa using fun hp => hc (List.elem_eq_true_of_mem hp)⟩

/-- Every element of an updated page set was there before or is the
inserted page. -/
theorem mem_setInsert {l : List Nat} {p q : Nat} (h : q ∈ setInsert l p) :
    q ∈ l ∨ q = p := by
  unfold setInsert at h
  split at h
  · exact Or.inl h
  · rcases List.mem_append.mp h with h | h
    · exact Or.inl h
    · exact Or.inr (List.mem_singleton.mp h)

/-- updateKey changes no key, only the value stored at the first matching
key. -/
theorem updateKey_keys (m : List (String × List Nat)) (f : String) (p : Nat) :
    (updateKey m f p).map Prod.fst = m.map Prod.fst := by
  induction m with
  | nil => rfl
  | cons kv rest ih =>
    unfold updateKey
    split
    · rfl
    · simp [ih]

/-- Pointwise wellformedness of sources_by_file: every entry has an
admissible key, a duplicate-free page set, and only admissible pages. -/
def SourcesOK (keyOK : String → Prop) (pageOK : String → Nat → Prop)
    (m : List (String × List Nat)) : Prop :=
  ∀ kv ∈ m, keyOK kv.1 ∧ kv.2.Nodup ∧ ∀ p ∈ kv.2, pageOK kv.1 p

/-- updateKey preserves wellformedness when the inserted page is
admissible for its key. -/
theorem updateKey_OK (keyOK : String → Prop) (pageOK : String → Nat → Prop)
    (m : List (String × List Nat)) (f : String) (p : Nat)
    (hm : SourcesOK keyOK pageOK m) (hp : pageOK f p) :
    SourcesOK keyOK pageOK (updateKey m f p) := by
  induction m with
  | nil => exact fun kv h => absurd h (List.not_mem_nil kv)
  | cons kv0 rest ih =>
    have hm0 := hm kv0 (List.mem_cons_self kv0 rest)
    have hmrest : SourcesOK keyOK pageOK rest :=
      fun kv h => hm kv (List.mem_cons_of_mem kv0 h)
    intro kv hkv
    unfold updateKey at hkv
    split at hkv
    · next heq =>
      rcases List.mem_cons.mp hkv with hkv | hkv
      · subst hkv
        have hkey : kv0.1 = f := eq_of_beq heq
        refine ⟨hm0.1, setInsert_nodup kv0.2 p hm0.2.1, ?_⟩
        intro q hq
        rcases mem_setInsert hq with hq | hq
        · exact hm0.2.2 q hq
        · subst hq
          rw [hkey]
          exact hp
      · exact hmrest kv hkv
    · rcases List.mem_cons.mp hkv with hkv | hkv
      · subst hkv
        exact hm0
      · exact ih hmrest kv hkv

/-- addNode preserves wellformedness when the node's filename is an
admissible key and its truthy page number is admissible for it. -/
theorem addNode_OK (keyOK : String → Prop) (pageOK : String → Nat → Prop)
    (m : List (String × List Nat)) (f : String) (pg : Option Nat)
    (hm : SourcesOK keyOK pageOK m) (hf : keyOK f)
    (hpg : ∀ p, pg = some p → p ≠ 0 → pageOK f p) :
    SourcesOK keyOK pageOK (addNode m f pg) := by
  unfold addNode
  have hm1 : SourcesOK keyOK pageOK
      (if m.any (fun kv => kv.1 == f) then m else m ++ [(f, [])]) := by
    split
    · exact hm
    · intro kv hkv
      rcases List.mem_append.mp hkv with hkv | hkv
      · exact hm kv hkv
      · rw [List.mem_singleton.mp hkv]
        exact ⟨hf, List.nodup_nil, fun p hp => absurd hp (List.not_mem_nil p)⟩
  cases pg with
  | none => exact hm1
  | some p =>
    dsimp only
    split
    · next hp0 => exact updateKey_OK keyOK pageOK _ f p hm1 (hpg p rfl hp0)
    · exact hm1

/-- The grouping loop preserves wellformedness across the whole stream of
owned nodes. -/
theorem sourcesLoop_OK (owned : List String) (keyOK : String → Prop)
    (pageOK : String → Nat → Prop) :
    ∀ (l : List Row) (m : List (String × List Nat)),
      (∀ n ∈ l, owned.contains n.node_id = true → keyOK n.filename) →
      (∀ n ∈ l, owned.contains n.node_id = true →
        ∀ p, n.page_number = some p → p ≠ 0 → pageOK n.filename p) →
      SourcesOK keyOK pageOK m →
      SourcesOK keyOK pageOK (sourcesLoop owned l m) := by
  intro l
  induction l with
  | nil => exact fun m _ _ hm => hm
  | cons n rest ih =>
    intro m hkey hpage hm
    unfold sourcesLoop
    refine ih _ (fun x hx => hkey x (List.mem_cons_of_mem n hx))
      (fun x hx => hpage x (List.mem_cons_of_mem n hx)) ?_
    split
    · next ho =>
      exact addNode_OK keyOK pageOK m n.filename n.page_number hm
        (hkey n (List.mem_cons_self n rest) ho)
        (hpage n (List.mem_cons_self n rest) ho)
    · exact hm

/-- addNode keeps the filename keys duplicate-free. -/
theorem addNode_keys_nodup (m : List (String × List Nat)) (f : String)
    (pg : Option Nat) (h : (m.map Prod.fst).Nodup) :
    ((addNode m f pg).map Prod.fst).Nodup := by
  unfold addNode
  have h1 : (((if m.any (fun kv => kv.1 == f) then m
      else m ++ [(f, [])]).map Prod.fst)).Nodup := by
    split
    · exact h
    · next hany =>
      simp only [List.map_append, List.map_cons, List.map_nil,
        List.nodup_append, List.nodup_singleton, true_and]
      refine ⟨h, ?_⟩
      intro k hk
      simp only [List.mem_singleton]
      intro hkf
      subst hkf
      obtain ⟨kv, hkv, hfst⟩ := List.mem_map.mp hk
      exact hany (List.any_eq_true.mpr ⟨kv, hkv, by simp [hfst]⟩)
  cases pg with
  | none => exact h1
  | some p =>
    dsimp only
    split
    · rw [updateKey_keys]
      exact h1
    · exact h1

/-- The grouping loop keeps the filename keys duplicate-free. -/
theorem sourcesLoop_keys_nodup (owned : List String) :
    ∀ (l : List Row) (m : List (String × List Nat)),
      (m.map Prod.fst).Nodup →
      ((sourcesLoop owned l m).map Prod.fst).Nodup := by
  intro l
  induction l with
  | nil => exact fun m hm => hm
  | cons n rest ih =>
    intro m hm
    unfold sourcesLoop
    refine ih _ ?_
    split
    · exact addNode_keys_nodup m n.filename n.page_number hm
    · exact hm

/-- Python's sorted() on a duplicate-free page set is strictly
increasing. -/
theorem sortedPages_sorted_lt (v : List Nat) (h : v.Nodup) :
    (sortedPages v).Sorted (· < ·) := by
  have hsorted : (sortedPages v).Sorted (· ≤ ·) :=
    List.sorted_insertionSort (fun a b => a ≤ b) v
  have hnodup : (sortedPages v).Nodup :=
    ((List.perm_insertionSort (fun a b => a ≤ b) v).nodup_iff).mpr h
  exact hsorted.lt_of_le hnodup

/-- Membership in the sorted page list is membership in the page set. -/
theorem mem_sortedPages {v : List Nat} {p : Nat} :
    p ∈ sortedPages v ↔ p ∈ v :=
  (List.perm_insertionSort (fun a b => a ≤ b) v).mem_iff

/-- C8: the citation block appended after the answer stream lists each
filename at most once, every entry's filename and every listed page come
from a source chunk whose owner tag matches the caller, and each entry's
page list is strictly increasing (sorted ascending with no duplicate
pages). -/
theorem C8_references_block (nodes : List Row) (owned : List String) :
    ((referencesBlock nodes owned).map Prod.fst).Nodup ∧
    (∀ kv ∈ referencesBlock nodes owned,
      ∃ n ∈ nodes, owned.contains n.node_id = true ∧ n.filename = kv.1) ∧
    (∀ kv ∈ referencesBlock nodes owned, ∀ p ∈ kv.2,
      ∃ n ∈ nodes, owned.contains n.node_id = true ∧ n.filename = kv.1 ∧
        n.page_number = some p) ∧
    (∀ kv ∈ referencesBlock nodes owned, kv.2.Sorted (· < ·)) := by
  have hOK : SourcesOK
      (fun f => ∃ n ∈ nodes, owned.contains n.node_id = true ∧
        n.filename = f)
      (fun f p => ∃ n ∈ nodes, owned.contains n.node_id = true ∧
        n.filename = f ∧ n.page_number = some p)
      (buildSources nodes owned) :=
    sourcesLoop_OK owned _ _ nodes []
      (fun n hn ho => ⟨n, hn, ho, rfl⟩)
      (fun n hn ho p hp _ => ⟨n, hn, ho, rfl, hp⟩)
      (fun kv h => absurd h (List.not_mem_nil kv))
  have hkeys : ((buildSources nodes owned).map Prod.fst).Nodup :=
    sourcesLoop_keys_nodup owned nodes [] List.nodup_nil
  refine ⟨?_, ?_, ?_, ?_⟩
  · have heq : (referencesBlock nodes owned).map Prod.fst
        = (buildSources nodes owned).map Prod.fst := by
      unfold referencesBlock
      rw [List.map_map]
      rfl
    rw [heq]
    exact hkeys
  · intro kv hkv
    obtain ⟨kv0, hkv0, hmap⟩ := List.mem_map.mp hkv
    subst hmap
    exact (hOK kv0 hkv0).1
  · intro kv hkv p hp
    obtain ⟨kv0, hkv0, hmap⟩ := List.mem_map.mp hkv
    subst hmap
    exact (hOK kv0 hkv0).2.2 p (mem_sortedPages.mp hp)
  · intro kv hkv
    obtain ⟨kv0, hkv0, hmap⟩ := List.mem_map.mp hkv
    subst hmap
    exact sortedPages_sorted_lt kv0.2 (hOK kv0 hkv0).2.1

theorem C8_references_block_witness :
    (("x.pdf", [1, 2]) : String × List Nat).2.Sorted (· < ·) :=
  (C8_references_block [⟨"n1", some "A", "x.pdf", some 2, "t"⟩,
      ⟨"n2", some "A", "x.pdf", some 1, "t"⟩] ["n1", "n2"]).2.2.2
    ("x.pdf", [1, 2]) (by decide)
